import Mathlib

/-!
Verification of the table-based training-plan extraction pipeline in
`services/pdf/app/parser.py`.

The Python functions `parse_week_date`, `parse_distance_from_text`,
`classify_workout_type`, `parse_workout_cell` and
`extract_workouts_from_pdf` are shallowly embedded below.  Strings are
`String`/`List Char` (Python `str` is a sequence of code points), Python
floats arising from `float()` on decimal digit strings are embedded as
exact rationals `ℚ`, `datetime` values are proleptic-Gregorian calendar
dates, and fallible operations return `Option`/`Except` (a `none`/`error`
models a raised-and-caught Python exception).  The external
PDF-to-table decode performed by the `pdfplumber` library is out of
scope per the spec (it is an external collaborator); documents enter the
model as the decoded page/table structure it yields, with an `Except`
layer for the exceptions it may raise.
-/

/-! ### Python-style character and string primitives -/

/-- Python `str.split()` whitespace (ASCII fragment): space, tab, newline,
carriage return, vertical tab, form feed. -/
def pyIsSpace (c : Char) : Bool :=
  c = ' ' || c = '\t' || c = '\n' || c = '\r' || c = '\x0b' || c = '\x0c'

/-- ASCII fragment of Python `str.upper` on one character. -/
def pyToUpper (c : Char) : Char :=
  if 'a' ≤ c ∧ c ≤ 'z' then Char.ofNat (c.toNat - 32) else c

/-- ASCII fragment of Python `str.lower` on one character. -/
def pyToLower (c : Char) : Char :=
  if 'A' ≤ c ∧ c ≤ 'Z' then Char.ofNat (c.toNat + 32) else c

/-- Python regex `\d` (ASCII fragment). -/
def isDigitChar (c : Char) : Bool :=
  decide ('0' ≤ c) && decide (c ≤ '9')

/-- Python regex `\w` (ASCII fragment): letters, digits, underscore. -/
def isWordChar (c : Char) : Bool :=
  (decide ('a' ≤ c) && decide (c ≤ 'z')) || (decide ('A' ≤ c) && decide (c ≤ 'Z'))
    || isDigitChar c || c = '_'

/-- Python `str.upper`. -/
def pyUpper (cs : List Char) : List Char := cs.map pyToUpper

/-- Python `str.lower`. -/
def pyLower (cs : List Char) : List Char := cs.map pyToLower

/-- Python `str.strip()`: drop leading and trailing whitespace. -/
def pyStrip (cs : List Char) : List Char :=
  ((cs.dropWhile pyIsSpace).reverse.dropWhile pyIsSpace).reverse

/-- Python `str.split()`: the whitespace-separated words, accumulating
the current word in reversed form in `cur`. -/
def splitWordsAux : List Char → List Char → List (List Char)
  | [], cur => if cur.isEmpty then [] else [cur.reverse]
  | c :: t, cur =>
    if pyIsSpace c then
      (if cur.isEmpty then splitWordsAux t [] else cur.reverse :: splitWordsAux t [])
    else splitWordsAux t (c :: cur)

/-- Python `' '.join(words)`. -/
def joinSpace : List (List Char) → List Char
  | [] => []
  | [w] => w
  | w :: w2 :: ws => w ++ ' ' :: joinSpace (w2 :: ws)

/-- Python `' '.join(text.split())`: collapse whitespace runs to single
spaces and drop leading/trailing whitespace. -/
def joinWords (cs : List Char) : List Char := joinSpace (splitWordsAux cs [])

/-- Case-insensitive "the pattern (2nd argument) is a prefix of the text
(1st argument)", as Python `re` does under `re.IGNORECASE`. -/
def startsWithCI : List Char → List Char → Bool
  | _, [] => true
  | [], _ :: _ => false
  | c :: cs, p :: ps => (pyToLower c = pyToLower p) && startsWithCI cs ps

/-- Python `pat in hay` substring test (case-sensitive). -/
def listContains : List Char → List Char → Bool
  | [], pat => pat.isEmpty
  | c :: t, pat => pat.isPrefixOf (c :: t) || listContains t pat

/-! ### The regex machinery of `parse_distance_from_text`

Each of the five patterns of the cascade contains one capture group
`(\d+\.?\d*)`.  `numCandidates` enumerates, at a fixed start position,
the strings that group can match, in the backtracking order of Python's
engine (longest integer part first; then with the optional dot, longest
fraction first; then without the dot).  `searchList` realises
`re.search`'s leftmost-position-first scan. -/

/-- Candidate matches of `\d+\.?\d*` anchored at the start of `cs`, in
Python backtracking order; each candidate is paired with the remaining
text. -/
def numCandidates (cs : List Char) : List (List Char × List Char) :=
  let n := (cs.takeWhile isDigitChar).length
  (List.range n).flatMap (fun i =>
    let k := n - i
    let pre := cs.take k
    let rest1 := cs.drop k
    let dotCands :=
      match rest1 with
      | '.' :: rest2 =>
        let m := (rest2.takeWhile isDigitChar).length
        (List.range (m + 1)).map (fun j =>
          (pre ++ '.' :: rest2.take (m - j), rest2.drop (m - j)))
      | _ => []
    dotCands ++ [(pre, rest1)])

/-- `c.toNat - '0'.toNat` for a digit character. -/
def digitVal (c : Char) : Nat := c.toNat - 48

/-- Decimal value of a digit list. -/
def natOfDigits (l : List Char) : Nat := l.foldl (fun a c => a * 10 + digitVal c) 0

/-- Python `float()` of a `\d+\.?\d*` group, as an exact rational:
integer part plus fraction-digits over the matching power of ten. -/
def floatOfGroup (g : List Char) : ℚ :=
  let ip := g.takeWhile isDigitChar
  let rest := g.dropWhile isDigitChar
  match rest with
  | '.' :: fp => mkRat (natOfDigits ip * 10 ^ fp.length + natOfDigits fp) (10 ^ fp.length)
  | _ => (natOfDigits ip : ℚ)

/-- Match `(\d+\.?\d*)X` at the start of `cs`, where `suffixOk` decides
the residual pattern `X`; returns `float()` of the first (in
backtracking order) group whose residual matches. -/
def numMatchAt (suffixOk : List Char → Bool) (cs : List Char) : Option ℚ :=
  match (numCandidates cs).find? (fun p => suffixOk p.2) with
  | some p => some (floatOfGroup p.1)
  | none => none

/-- `re.search`: try the position matcher at each start position, left to
right, first success wins. -/
def searchList (matchAt : List Char → Option ℚ) : List Char → Option ℚ
  | [] => matchAt []
  | c :: t =>
    match matchAt (c :: t) with
    | some q => some q
    | none => searchList matchAt t

/-- Residual `(?:miles?|mi)` of the unit alternation (no word boundary). -/
def matchUnit (r : List Char) : Bool :=
  startsWithCI r "miles".data || startsWithCI r "mile".data || startsWithCI r "mi".data

/-- Residual `\s*(?:miles?|mi)` of pattern 1, `to\s+(\d+\.?\d*)\s*(?:miles?|mi)`. -/
def suffixToMiles (r : List Char) : Bool :=
  matchUnit (r.dropWhile pyIsSpace)

/-- One unit alternative of pattern 2 followed by `\s+total`. -/
def unitThenTotal (r : List Char) (u : List Char) : Bool :=
  startsWithCI r u &&
    (let after := (r.drop u.length)
     !(after.takeWhile pyIsSpace).isEmpty && startsWithCI (after.dropWhile pyIsSpace) "total".data)

/-- Residual `\s*(?:miles?|mi)?\s+total` of pattern 2,
`(\d+\.?\d*)\s*(?:miles?|mi)?\s+total`.  When the optional unit is
absent, `\s*\s+` amounts to at least one whitespace before `total`; when
present, the unit must start right after the whitespace run (backtracking
of `\s*` cannot stop earlier, the unit starts with a non-space). -/
def suffixTotal (r : List Char) : Bool :=
  let r2 := r.dropWhile pyIsSpace
  (!(r.takeWhile pyIsSpace).isEmpty && startsWithCI r2 "total".data)
    || unitThenTotal r2 "miles".data || unitThenTotal r2 "mile".data || unitThenTotal r2 "mi".data

/-- Python `\b` right after a word character: next char absent or non-word. -/
def boundaryOk : List Char → Bool
  | [] => true
  | c :: _ => !isWordChar c

/-- One unit alternative of pattern 3 followed by `\b`. -/
def unitWithBoundary (r : List Char) (u : List Char) : Bool :=
  startsWithCI r u && boundaryOk (r.drop u.length)

/-- Residual `\s*(?:miles?|mi)\b` of pattern 3, `(\d+\.?\d*)\s*(?:miles?|mi)\b`. -/
def suffixMiles (r : List Char) : Bool :=
  let r2 := r.dropWhile pyIsSpace
  unitWithBoundary r2 "miles".data || unitWithBoundary r2 "mile".data || unitWithBoundary r2 "mi".data

/-- Residual `\s+` of pattern 4, `^(\d+\.?\d*)\s+`. -/
def suffixWs : List Char → Bool
  | [] => false
  | c :: _ => pyIsSpace c

/-- Position matcher for pattern 1, `to\s+(\d+\.?\d*)\s*(?:miles?|mi)`
(`\s+` is committed to its maximal run: the following `\d` cannot match
whitespace). -/
def toMilesMatchAt (cs : List Char) : Option ℚ :=
  if startsWithCI cs "to".data then
    if ((cs.drop 2).takeWhile pyIsSpace).isEmpty then none
    else numMatchAt suffixToMiles ((cs.drop 2).dropWhile pyIsSpace)
  else none

/-- `re.search(r'to\s+(\d+\.?\d*)\s*(?:miles?|mi)', text, re.IGNORECASE)`. -/
def toMilesSearch (cs : List Char) : Option ℚ := searchList toMilesMatchAt cs

/-- `re.search(r'(\d+\.?\d*)\s*(?:miles?|mi)?\s+total', text, re.IGNORECASE)`. -/
def totalSearch (cs : List Char) : Option ℚ := searchList (numMatchAt suffixTotal) cs

/-- `re.search(r'(\d+\.?\d*)\s*(?:miles?|mi)\b', text, re.IGNORECASE)`. -/
def milesSearch (cs : List Char) : Option ℚ := searchList (numMatchAt suffixMiles) cs

/-- `re.match(r'^(\d+\.?\d*)\s+', text)`: anchored at the start. -/
def startNumMatch (cs : List Char) : Option ℚ := numMatchAt suffixWs cs

/-- `re.search(r'(\d+\.?\d*)', text)`: first number anywhere. -/
def anyNumberSearch (cs : List Char) : Option ℚ := searchList (numMatchAt (fun _ => true)) cs

/-! ### `parse_distance_from_text` and `classify_workout_type` -/

/-- The sentinel cell values of `parse_distance_from_text`:
`["XT", "OFF", "PARTAY"]`. -/
def skipWords : List (List Char) := ["XT".data, "OFF".data, "PARTAY".data]

/-- One step of the cascade: `distance = float(m.group(1)); if 0.5 <=
distance <= 25: return distance` — otherwise fall through to `k`. -/
def acceptInRange : Option ℚ → Option ℚ → Option ℚ
  | some q, k => if mkRat 1 2 ≤ q ∧ q ≤ 25 then some q else k
  | none, k => k

/-- `parse_distance_from_text` (parser.py lines 54-109). -/
def parse_distance_from_text (text : String) : Option ℚ :=
  if text = "" ∨ pyUpper (pyStrip text.data) ∈ skipWords then none
  else
    let t := joinWords text.data
    acceptInRange (toMilesSearch t)
      (acceptInRange (totalSearch t)
        (acceptInRange (milesSearch t)
          (acceptInRange (startNumMatch t)
            (acceptInRange (anyNumberSearch t) none))))

/-- The keyword list of the SPEED rule of `classify_workout_type`. -/
def speedKeywords : List (List Char) :=
  ["interval".data, " x ".data, "@".data, "pace".data, "min on".data, "min off".data,
   "uphill".data, "5k pace".data, "10k pace".data, "400".data, "800".data, "1200".data,
   "warm-up".data]

/-- `classify_workout_type` (parser.py lines 112-169). -/
def classify_workout_type (text : String) : String :=
  if text = "" then "REST"
  else
    let tl := pyLower (joinWords text.data)
    if listContains tl "xt".data || listContains tl "cross".data then "CROSS_TRAINING"
    else if listContains tl "off".data || (pyStrip tl).isEmpty then "REST"
    else if listContains tl "tempo".data || listContains tl "ghmp".data then "TEMPO"
    else if speedKeywords.any (fun k => listContains tl k) then "SPEED"
    else if listContains tl "long".data then "LONG"
    else if listContains tl "recovery".data then "RECOVERY"
    else if listContains tl "easy".data then "EASY"
    else if listContains tl "stride".data then "EASY"
    else if listContains tl "race".data || listContains tl "5 mc".data then "SPEED"
    else "EASY"

/-! ### Dates

`datetime` values at midnight are embedded as proleptic-Gregorian
calendar dates.  `toordinal` is CPython's `date.toordinal` (days since
0001-01-01, that date being day 1); for midnight-anchored parsed dates,
`(datetime.now() - parsed).days` equals the difference of ordinals of
the two calendar dates regardless of the time of day of `now`, since
`timedelta.days` floors. -/

structure Date where
  year : Nat
  month : Nat
  day : Nat
deriving DecidableEq, Repr

/-- Gregorian leap year. -/
def isLeap (y : Nat) : Bool :=
  (y % 4 == 0) && ((y % 100 != 0) || (y % 400 == 0))

/-- Days in a month of a given year. -/
def daysInMonth (y m : Nat) : Nat :=
  if m = 2 then (if isLeap y then 29 else 28)
  else if m = 4 ∨ m = 6 ∨ m = 9 ∨ m = 11 then 30
  else 31

/-- A calendar date `datetime` would accept. -/
def Date.Valid (d : Date) : Prop :=
  1 ≤ d.year ∧ 1 ≤ d.month ∧ d.month ≤ 12 ∧ 1 ≤ d.day ∧ d.day ≤ daysInMonth d.year d.month

instance (d : Date) : Decidable d.Valid := by
  unfold Date.Valid; infer_instance

/-- CPython `_days_before_year`. -/
def daysBeforeYear (y : Nat) : Nat :=
  (y - 1) * 365 + (y - 1) / 4 - (y - 1) / 100 + (y - 1) / 400

/-- CPython `_days_before_month`: days in the months strictly before `m`. -/
def daysBeforeMonth (y m : Nat) : Nat :=
  ((List.range (m - 1)).map (fun i => daysInMonth y (i + 1))).sum

/-- CPython `date.toordinal`. -/
def toordinal (d : Date) : Nat :=
  daysBeforeYear d.year + daysBeforeMonth d.year d.month + d.day

/-- The calendar successor of a date (used to embed `+ timedelta(days=n)`). -/
def nextDay (d : Date) : Date :=
  if d.day < daysInMonth d.year d.month then ⟨d.year, d.month, d.day + 1⟩
  else if d.month < 12 then ⟨d.year, d.month + 1, 1⟩
  else ⟨d.year + 1, 1, 1⟩

/-- `d + timedelta(days=n)`. -/
def addDays (d : Date) : Nat → Date
  | 0 => d
  | n + 1 => nextDay (addDays d n)

/-! ### `parse_week_date`

`datetime.strptime(f"{week_str}-{current_year}", "%d-%b-%Y")` is
embedded by `strptime_d_b_Y week_str.data current_year`.  The `%d`
pattern is CPython's `3[01]|[12]\d|0[1-9]|[1-9]` (committing to the
longest alternative is equivalent here because the next format char is
the non-digit `'-'`); `%b` is the case-insensitive three-letter month
alternation; `%Y` is exactly four digits, and strptime rejects the
string when characters remain.  Parsing the concatenation
`week_str + "-" + str(year)` this way succeeds iff `week_str` itself is
exactly `%d-%b` and `str(year)` is four digits, i.e. `1000 ≤ year ≤
9999` (any residue of `week_str` would put the non-digit `'-'` inside
the four `%Y` digits or leave unconverted data).  `datetime` then
validates the day against the month and year, raising `ValueError`
(`none` here) on e.g. Feb 29 of a non-leap year. -/

/-- CPython strptime `%d` regex `3[01]|[12]\d|0[1-9]|[1-9]`, returning
the day and the remaining characters. -/
def parsePctD : List Char → Option (Nat × List Char)
  | '3' :: c :: rest =>
    if c = '0' ∨ c = '1' then some (30 + digitVal c, rest)
    else some (3, c :: rest)
  | c1 :: c2 :: rest =>
    if (c1 = '1' ∨ c1 = '2') ∧ isDigitChar c2 then some (digitVal c1 * 10 + digitVal c2, rest)
    else if c1 = '0' ∧ ('1' ≤ c2 ∧ c2 ≤ '9') then some (digitVal c2, rest)
    else if '1' ≤ c1 ∧ c1 ≤ '9' then some (digitVal c1, c2 :: rest)
    else none
  | [c] => if '1' ≤ c ∧ c ≤ '9' then some (digitVal c, []) else none
  | [] => none

/-- The `%b` month abbreviations, in month order. -/
def monthAbbrevs : List (List Char) :=
  ["Jan".data, "Feb".data, "Mar".data, "Apr".data, "May".data, "Jun".data,
   "Jul".data, "Aug".data, "Sep".data, "Oct".data, "Nov".data, "Dec".data]

/-- Match one month abbreviation (case-insensitively) at the head of `cs`. -/
def matchMonthAux : List (List Char) → Nat → List Char → Option (Nat × List Char)
  | [], _, _ => none
  | a :: rest, i, cs =>
    if startsWithCI cs a then some (i, cs.drop a.length)
    else matchMonthAux rest (i + 1) cs

/-- CPython strptime `%b`. -/
def matchMonth (cs : List Char) : Option (Nat × List Char) :=
  matchMonthAux monthAbbrevs 1 cs

/-- `datetime.strptime(f"{tok}-{year}", "%d-%b-%Y")`, `none` for `ValueError`. -/
def strptime_d_b_Y (tok : List Char) (year : Nat) : Option Date :=
  match parsePctD tok with
  | none => none
  | some (d, r1) =>
    match r1 with
    | '-' :: r2 =>
      match matchMonth r2 with
      | none => none
      | some (m, r3) =>
        if r3 = [] ∧ 1000 ≤ year ∧ year ≤ 9999 ∧ d ≤ daysInMonth year m then
          some ⟨year, m, d⟩
        else none
    | _ => none

/-- `parse_week_date` (parser.py lines 26-51).  `now` stands for
`datetime.now()`; the try/except around the body returns `None` when the
year+1 re-parse raises, which the `Option` result of the second
`strptime_d_b_Y` already encodes. -/
def parse_week_date (week_str : String) (now : Date) : Option Date :=
  match strptime_d_b_Y week_str.data now.year with
  | none => none
  | some parsed =>
    if (toordinal now : ℤ) - (toordinal parsed : ℤ) > 180 then
      strptime_d_b_Y week_str.data (now.year + 1)
    else some parsed

/-! ### `parse_workout_cell` and the orchestrator -/

/-- One output record; `scheduled_date` holds the date whose
`.date().isoformat()` the Python dict stores, and is total (never null)
by construction. -/
structure Workout where
  name : String
  workout_type : String
  planned_distance : ℚ
  scheduled_date : Date
deriving DecidableEq, Repr

/-- `parse_workout_cell` (parser.py lines 172-215). -/
def parse_workout_cell (cell_text : String) (scheduled_date : Date) : Option Workout :=
  if cell_text = "" ∨ (pyStrip cell_text.data).isEmpty then none
  else
    let ct := joinWords cell_text.data
    if pyUpper ct = "OFF".data ∨ pyUpper ct = "PARTAY".data then none
    else if pyUpper ct = "XT".data ∨ "XT +".data.isPrefixOf (pyUpper ct) then none
    else
      match parse_distance_from_text ⟨ct⟩ with
      | none => none
      | some distance =>
        let name : List Char := if ct.length ≤ 100 then ct.take 100 else ct.take 97 ++ "...".data
        some ⟨⟨name⟩, classify_workout_type ⟨ct⟩, distance, scheduled_date⟩

/-- `DAY_COLUMNS` (parser.py line 23). -/
def DAY_COLUMNS : List String :=
  ["monday", "tuesday", "wednesday", "thursday", "friday", "saturday", "sunday"]

/-- Python `list.index` (only called on members here). -/
def listIndex (s : String) : List String → Nat
  | [] => 0
  | x :: rest => if x = s then 0 else 1 + listIndex s rest

/-- `day_col_indices[col_lower] = idx` on an insertion-ordered dict:
an existing key keeps its position and takes the new value. -/
def upsertDayCol (m : List (String × Nat)) (k : String) (v : Nat) : List (String × Nat) :=
  if m.any (fun p => p.1 = k) then m.map (fun p => if p.1 = k then (k, v) else p)
  else m ++ [(k, v)]

/-- Scan the header row, collecting day-name columns (parser.py lines 258-263). -/
def buildDayColsAux : List (Option String) → Nat → List (String × Nat) → List (String × Nat)
  | [], _, acc => acc
  | c :: rest, idx, acc =>
    buildDayColsAux rest (idx + 1)
      (match c with
       | none => acc
       | some s =>
         if s = "" then acc
         else
           let cl : String := ⟨pyStrip (pyLower s.data)⟩
           if cl ∈ DAY_COLUMNS then upsertDayCol acc cl idx else acc)

/-- The `day_col_indices` dict, as an insertion-ordered association list. -/
def buildDayCols (header : List (Option String)) : List (String × Nat) :=
  buildDayColsAux header 0 []

/-- A decoded table: a matrix of optional text cells. -/
abbrev TableData := List (List (Option String))

/-- One iteration of the per-day loop (parser.py lines 288-310): bounds
check, blank-cell check, scheduled date from the day offset, then the
cell interpreter; zero or one record. -/
def processCell (weekStart : Date) (row : List (Option String)) (dc : String × Nat) :
    List Workout :=
  if dc.2 < row.length then
    match row.getD dc.2 none with
    | none => []
    | some cellText =>
      if (pyStrip cellText.data).isEmpty then []
      else
        match parse_workout_cell cellText (addDays weekStart (listIndex dc.1 DAY_COLUMNS)) with
        | some w => [w]
        | none => []
  else []

/-- The per-day loop of one data row (parser.py lines 288-310). -/
def processRow (dayCols : List (String × Nat)) (weekStart : Date) (row : List (Option String)) :
    List Workout :=
  dayCols.flatMap (processCell weekStart row)

/-- The per-table loop (parser.py lines 246-310). -/
def processTable (now : Date) (table : TableData) : List Workout :=
  if table.length < 2 then []
  else
    match table with
    | [] => []
    | header :: rows =>
      let dayCols := buildDayCols header
      rows.flatMap (fun row =>
        match row with
        | [] => []
        | _ :: _ =>
          match row.getD 0 none with
          | none => []
          | some wc =>
            if (pyStrip wc.data).isEmpty then []
            else
              match parse_week_date ⟨pyStrip wc.data⟩ now with
              | none => []
              | some ws => processRow dayCols ws row)

/-- Modelled from the spec: the external `pdfplumber` decode (out of
scope per spec sections 1 and 9) yields per page a list of tables; an
`error` value stands for an exception raised by
`page.extract_tables()`. -/
abbrev PageTables := Except String (List TableData)

/-- The page loop (parser.py lines 235-310) in the exception monad: an
exception from a page's table extraction aborts the whole document. -/
def extractAux (now : Date) : List PageTables → Except String (List Workout)
  | [] => Except.ok []
  | p :: rest =>
    match p with
    | Except.error e => Except.error e
    | Except.ok tables =>
      match extractAux now rest with
      | Except.error e => Except.error e
      | Except.ok ws =>
        if tables.isEmpty then Except.ok ws
        else Except.ok (tables.flatMap (processTable now) ++ ws)

/-- The body of the top-level `try` (parser.py lines 231-313): opening
the document (`pdfplumber.open`, an `error` models its exception) then
the page loop. -/
def extractBody (opened : Except String (List PageTables)) (now : Date) :
    Except String (List Workout) :=
  match opened with
  | Except.error e => Except.error e
  | Except.ok pages => extractAux now pages

/-- `extract_workouts_from_pdf` (parser.py lines 218-317): the
`except Exception` at the document boundary converts any error to `[]`.
`plan_start_date` is a parameter of the Python function and is threaded
here unused, as in the source. -/
def extract_workouts_from_pdf (opened : Except String (List PageTables))
    (plan_start_date : Date) (now : Date) : List Workout :=
  match extractBody opened now with
  | Except.ok ws => ws
  | Except.error _ => []

/-! ### Supporting lemmas -/

/-- The seven workout-type labels of the backend enum. -/
def workoutTypeLabels : List String :=
  ["EASY", "TEMPO", "LONG", "SPEED", "RECOVERY", "CROSS_TRAINING", "REST"]

theorem listContains_exists {hay pat : List Char} (h : listContains hay pat = true) :
    ∃ pre suf, hay = pre ++ (pat ++ suf) := by
  induction hay with
  | nil =>
    simp only [listContains, List.isEmpty_iff] at h
    exact ⟨[], [], by simp [h]⟩
  | cons c t ih =>
    simp only [listContains, Bool.or_eq_true] at h
    rcases h with h | h
    · rcases List.isPrefixOf_iff_prefix.1 h with ⟨suf, hsuf⟩
      exact ⟨[], suf, by simp [hsuf]⟩
    · rcases ih h with ⟨pre, suf, hps⟩
      exact ⟨c :: pre, suf, by simp [hps]⟩

theorem mem_of_listContains {hay pat : List Char} {c : Char}
    (h : listContains hay pat = true) (hc : c ∈ pat) : c ∈ hay := by
  rcases listContains_exists h with ⟨pre, suf, rfl⟩
  simp [hc]

theorem mem_dropWhile_of_neg {p : Char → Bool} {l : List Char} {c : Char}
    (hc : c ∈ l) (hp : p c = false) : c ∈ l.dropWhile p := by
  induction l with
  | nil => cases hc
  | cons a t ih =>
    rw [List.dropWhile_cons]
    split
    · rename_i ha
      rcases List.mem_cons.1 hc with rfl | hc2
      · rw [hp] at ha; cases ha
      · exact ih hc2
    · exact hc

theorem mem_pyStrip_of_not_space {l : List Char} {c : Char}
    (hc : c ∈ l) (hs : pyIsSpace c = false) : c ∈ pyStrip l := by
  unfold pyStrip
  rw [List.mem_reverse]
  exact mem_dropWhile_of_neg (List.mem_reverse.2 (mem_dropWhile_of_neg hc hs)) hs

theorem pyStrip_ne_nil {l : List Char} {c : Char}
    (hc : c ∈ l) (hs : pyIsSpace c = false) : pyStrip l ≠ [] := by
  intro he
  have := mem_pyStrip_of_not_space hc hs
  rw [he] at this
  cases this

theorem mem_joinSpace {ws : List (List Char)} {c : Char} (h : c ∈ joinSpace ws) :
    c = ' ' ∨ ∃ w ∈ ws, c ∈ w := by
  induction ws with
  | nil => cases h
  | cons w rest ih =>
    cases rest with
    | nil => exact Or.inr ⟨w, List.mem_cons_self _ _, h⟩
    | cons w2 ws2 =>
      simp only [joinSpace] at h
      rcases List.mem_append.1 h with h1 | h2
      · exact Or.inr ⟨w, List.mem_cons_self _ _, h1⟩
      · rcases List.mem_cons.1 h2 with rfl | h3
        · exact Or.inl rfl
        · rcases ih h3 with h4 | ⟨w2, hw2, hc2⟩
          · exact Or.inl h4
          · exact Or.inr ⟨w2, List.mem_cons_of_mem w hw2, hc2⟩

theorem mem_splitWordsAux {c : Char} {w : List Char} (hc : c ∈ w) :
    ∀ {l cur : List Char}, w ∈ splitWordsAux l cur → c ∈ l ∨ c ∈ cur := by
  intro l
  induction l with
  | nil =>
    intro cur hw
    simp only [splitWordsAux] at hw
    split at hw
    · cases hw
    · rcases List.mem_cons.1 hw with rfl | h
      · exact Or.inr (List.mem_reverse.1 hc)
      · cases h
  | cons a t ih =>
    intro cur hw
    simp only [splitWordsAux] at hw
    split at hw
    · split at hw
      · rcases ih hw with h | h
        · exact Or.inl (List.mem_cons_of_mem a h)
        · cases h
      · rcases List.mem_cons.1 hw with rfl | h2
        · exact Or.inr (List.mem_reverse.1 hc)
        · rcases ih h2 with h | h
          · exact Or.inl (List.mem_cons_of_mem a h)
          · cases h
    · rcases ih hw with h | h
      · exact Or.inl (List.mem_cons_of_mem a h)
      · rcases List.mem_cons.1 h with rfl | h3
        · exact Or.inl (List.mem_cons_self _ _)
        · exact Or.inr h3

theorem mem_of_joinWords {l : List Char} {c : Char} (h : c ∈ joinWords l) :
    c = ' ' ∨ c ∈ l := by
  rcases mem_joinSpace h with h1 | ⟨w, hw, hc⟩
  · exact Or.inl h1
  · rcases mem_splitWordsAux hc hw with h2 | h2
    · exact Or.inr h2
    · cases h2

theorem pyToUpper_digit {c : Char} (h : isDigitChar c = true) : pyToUpper c = c := by
  unfold isDigitChar at h
  simp only [Bool.and_eq_true, decide_eq_true_eq] at h
  unfold pyToUpper
  rw [if_neg]
  rintro ⟨h1, _⟩
  exact absurd (le_trans h1 h.2) (by decide)

theorem pyIsSpace_digit {c : Char} (h : isDigitChar c = true) : pyIsSpace c = false := by
  unfold isDigitChar at h
  simp only [Bool.and_eq_true, decide_eq_true_eq] at h
  unfold pyIsSpace
  simp only [Bool.or_eq_false_iff, decide_eq_false_iff_not]
  refine ⟨⟨⟨⟨⟨?_, ?_⟩, ?_⟩, ?_⟩, ?_⟩, ?_⟩ <;>
    (rintro rfl; exact absurd h.1 (by decide))

theorem no_digit_of_skip {text : String} (h : pyUpper (pyStrip text.data) ∈ skipWords)
    {c : Char} (hc : c ∈ text.data) (hd : isDigitChar c = true) : False := by
  have h1 : c ∈ pyStrip text.data := mem_pyStrip_of_not_space hc (pyIsSpace_digit hd)
  have h2 : pyToUpper c ∈ pyUpper (pyStrip text.data) := List.mem_map_of_mem _ h1
  rw [pyToUpper_digit hd] at h2
  simp only [skipWords, List.mem_cons, List.not_mem_nil, or_false] at h
  rcases h with h | h | h <;> rw [h] at h2
  · have := (by decide : ∀ x ∈ "XT".data, isDigitChar x = false) c h2
    rw [this] at hd; cases hd
  · have := (by decide : ∀ x ∈ "OFF".data, isDigitChar x = false) c h2
    rw [this] at hd; cases hd
  · have := (by decide : ∀ x ∈ "PARTAY".data, isDigitChar x = false) c h2
    rw [this] at hd; cases hd

theorem numMatchAt_digit {f : List Char → Bool} {cs : List Char} {q : ℚ}
    (h : numMatchAt f cs = some q) : ∃ c ∈ cs, isDigitChar c = true := by
  unfold numMatchAt at h
  split at h
  · rename_i p hp
    have hne : numCandidates cs ≠ [] := by
      intro he; rw [he] at hp; simp at hp
    unfold numCandidates at hne
    cases htw : cs.takeWhile isDigitChar with
    | nil => rw [htw] at hne; simp at hne
    | cons c0 t0 =>
      refine ⟨c0, ?_, List.mem_takeWhile_imp (htw ▸ List.mem_cons_self c0 t0)⟩
      have : c0 ∈ cs.takeWhile isDigitChar := htw ▸ List.mem_cons_self c0 t0
      exact (List.takeWhile_sublist _).subset this
  · cases h

theorem toMilesMatchAt_digit {cs : List Char} {q : ℚ} (h : toMilesMatchAt cs = some q) :
    ∃ c ∈ cs, isDigitChar c = true := by
  unfold toMilesMatchAt at h
  split at h
  · split at h
    · cases h
    · obtain ⟨c, hc, hd⟩ := numMatchAt_digit h
      have h1 : c ∈ cs.drop 2 := (List.dropWhile_sublist _).subset hc
      exact ⟨c, (List.drop_sublist 2 cs).subset h1, hd⟩
  · cases h

theorem toMilesSearch_digit {cs : List Char} {q : ℚ} (h : toMilesSearch cs = some q) :
    ∃ c ∈ cs, isDigitChar c = true := by
  unfold toMilesSearch at h
  induction cs with
  | nil =>
    have h0 : toMilesMatchAt [] = none := by decide
    rw [searchList, h0] at h; cases h
  | cons c t ih =>
    rw [searchList] at h
    split at h
    · rename_i q' hq'
      cases h
      obtain ⟨c', hc', hd⟩ := toMilesMatchAt_digit hq'
      exact ⟨c', hc', hd⟩
    · obtain ⟨c', hc', hd⟩ := ih h
      exact ⟨c', List.mem_cons_of_mem c hc', hd⟩

theorem acceptInRange_eq_some {c k : Option ℚ} {q : ℚ} (h : acceptInRange c k = some q) :
    (mkRat 1 2 ≤ q ∧ q ≤ 25) ∨ k = some q := by
  cases c with
  | none => exact Or.inr h
  | some r =>
    have h' : (if mkRat 1 2 ≤ r ∧ r ≤ 25 then some r else k) = some q := h
    by_cases hr : mkRat 1 2 ≤ r ∧ r ≤ 25
    · rw [if_pos hr] at h'
      exact Or.inl (Option.some.inj h' ▸ hr)
    · rw [if_neg hr] at h'
      exact Or.inr h'

theorem parse_distance_range {text : String} {q : ℚ}
    (h : parse_distance_from_text text = some q) : mkRat 1 2 ≤ q ∧ q ≤ 25 := by
  simp only [parse_distance_from_text] at h
  split at h
  · cases h
  · rcases acceptInRange_eq_some h with h1 | h
    · exact h1
    rcases acceptInRange_eq_some h with h1 | h
    · exact h1
    rcases acceptInRange_eq_some h with h1 | h
    · exact h1
    rcases acceptInRange_eq_some h with h1 | h
    · exact h1
    rcases acceptInRange_eq_some h with h1 | h
    · exact h1
    cases h

theorem classify_mem (text : String) :
    classify_workout_type text ∈ workoutTypeLabels := by
  simp only [classify_workout_type]
  repeat' split
  all_goals decide

theorem parse_workout_cell_inv {cell : String} {d : Date} {w : Workout}
    (h : parse_workout_cell cell d = some w) :
    (mkRat 1 2 ≤ w.planned_distance ∧ w.planned_distance ≤ 25) ∧
    w.workout_type ∈ workoutTypeLabels ∧ w.scheduled_date = d := by
  simp only [parse_workout_cell] at h
  split at h
  · cases h
  split at h
  · cases h
  split at h
  · cases h
  split at h
  · cases h
  · rename_i dist hdist
    cases h
    exact ⟨parse_distance_range hdist, classify_mem _, rfl⟩

theorem mem_processRow {w : Workout} {dayCols : List (String × Nat)} {ws : Date}
    {row : List (Option String)} (h : w ∈ processRow dayCols ws row) :
    ∃ c d, parse_workout_cell c d = some w := by
  simp only [processRow, List.mem_flatMap] at h
  obtain ⟨dc, -, hw⟩ := h
  simp only [processCell] at hw
  split at hw
  · split at hw
    · cases hw
    · split at hw
      · cases hw
      · split at hw
        · rename_i w' hw'
          rcases List.mem_cons.1 hw with rfl | hw2
          · exact ⟨_, _, hw'⟩
          · cases hw2
        · cases hw
  · cases hw

theorem mem_processTable {w : Workout} {now : Date} {table : TableData}
    (h : w ∈ processTable now table) : ∃ c d, parse_workout_cell c d = some w := by
  simp only [processTable] at h
  split at h
  · cases h
  split at h
  · cases h
  · rw [List.mem_flatMap] at h
    obtain ⟨row, -, hw⟩ := h
    split at hw
    · cases hw
    split at hw
    · cases hw
    · rename_i wc
      split at hw
      · cases hw
      split at hw
      · cases hw
      · exact mem_processRow hw

theorem mem_extractAux {w : Workout} {now : Date} {pages : List PageTables}
    {ws : List Workout} (h : extractAux now pages = Except.ok ws) (hw : w ∈ ws) :
    ∃ c d, parse_workout_cell c d = some w := by
  induction pages generalizing ws with
  | nil =>
    simp only [extractAux] at h
    cases h
    cases hw
  | cons p rest ih =>
    simp only [extractAux] at h
    split at h
    · cases h
    · split at h
      · cases h
      · rename_i ws' hrest
        split at h
        · cases h
          exact ih hrest hw
        · cases h
          rcases List.mem_append.1 hw with h1 | h2
          · rw [List.mem_flatMap] at h1
            obtain ⟨tb, -, htb⟩ := h1
            exact mem_processTable htb
          · exact ih hrest h2

theorem mem_extract {w : Workout} {opened : Except String (List PageTables)}
    {psd now : Date} (h : w ∈ extract_workouts_from_pdf opened psd now) :
    ∃ c d, parse_workout_cell c d = some w := by
  simp only [extract_workouts_from_pdf] at h
  split at h
  · rename_i ws heq
    simp only [extractBody] at heq
    split at heq
    · cases heq
    · exact mem_extractAux heq h
  · cases h

/-! ### The claims -/

/-- C1: every record emitted by `extract_workouts_from_pdf` — for any
decoded document, any plan start date and any clock value — has a
`planned_distance` in the closed interval [0.5, 25] miles and a
`workout_type` among the seven labels EASY, TEMPO, LONG, SPEED,
RECOVERY, CROSS_TRAINING, REST; its `scheduled_date` field is total
(non-null) by the type of `Workout`. -/
theorem c1_record_invariants (opened : Except String (List PageTables))
    (psd now : Date) (w : Workout)
    (h : w ∈ extract_workouts_from_pdf opened psd now) :
    (mkRat 1 2 ≤ w.planned_distance ∧ w.planned_distance ≤ 25) ∧
    w.workout_type ∈ workoutTypeLabels := by
  obtain ⟨c, d, hc⟩ := mem_extract h
  obtain ⟨hrange, hmem, -⟩ := parse_workout_cell_inv hc
  exact ⟨hrange, hmem⟩

/-- A one-table document used to witness C1. -/
def c1doc : Except String (List PageTables) :=
  Except.ok [Except.ok [[[some "Week", some "Monday"], [some "21-Jul", some "5"]]]]

/-- The record `c1doc` produces. -/
def c1rec : Workout := ⟨"5", "EASY", 5, ⟨2025, 7, 21⟩⟩

/-- Witness for C1 at a concrete document and record. -/
theorem c1_witness :
    c1rec ∈ extract_workouts_from_pdf c1doc ⟨2025, 7, 1⟩ ⟨2025, 7, 1⟩ ∧
    ((mkRat 1 2 ≤ c1rec.planned_distance ∧ c1rec.planned_distance ≤ 25) ∧
     c1rec.workout_type ∈ workoutTypeLabels) :=
  ⟨by decide, c1_record_invariants c1doc ⟨2025, 7, 1⟩ ⟨2025, 7, 1⟩ c1rec (by decide)⟩

/-- C3: `extract_workouts_from_pdf` is total — for every input, either
the orchestration body succeeds and its list is returned, or the body
raises (an `Except.error` of `extractBody`) and the function returns
`[]`; the exception never propagates. -/
theorem c3_never_raises (opened : Except String (List PageTables)) (psd now : Date) :
    (∃ ws, extractBody opened now = Except.ok ws ∧
      extract_workouts_from_pdf opened psd now = ws) ∨
    (∃ e, extractBody opened now = Except.error e ∧
      extract_workouts_from_pdf opened psd now = []) := by
  cases h : extractBody opened now with
  | ok ws => exact Or.inl ⟨ws, rfl, by simp [extract_workouts_from_pdf, h]⟩
  | error e => exact Or.inr ⟨e, rfl, by simp [extract_workouts_from_pdf, h]⟩

/-- C8: the `plan_start_date` argument has no influence on the result of
`extract_workouts_from_pdf`: any two values of it yield equal outputs on
every document and clock value. -/
theorem c8_plan_start_date_unused (opened : Except String (List PageTables))
    (d1 d2 now : Date) :
    extract_workouts_from_pdf opened d1 now = extract_workouts_from_pdf opened d2 now := rfl

/-- C9: a cell whose text contains "off" together with an in-range
mileage figure (here "6 miles then day off", which is not the exact
sentinel "OFF") is not dropped by the rest/cross-training skip rules:
`parse_workout_cell` emits a record, classified REST with positive
planned distance. -/
theorem c9_rest_with_distance (d : Date) :
    parse_workout_cell "6 miles then day off" d =
      some ⟨"6 miles then day off", "REST", 6, d⟩ ∧
    listContains (pyLower "6 miles then day off".data) "off".data = true ∧
    ("6 miles then day off" : String) ≠ "OFF" ∧ (0 : ℚ) < 6 :=
  ⟨rfl, by decide, by decide, by decide⟩

/-- C10: "29-Feb" parsed when `now` is 2024-12-31 (a leap year, with
Feb 29 more than 180 days in the past) resolves to `none`: the same-year
parse succeeds, the 180-day check triggers the year+1 re-parse, and that
re-parse raises (2025 is not a leap year), caught by the surrounding
try/except. -/
theorem c10_leap_day_rollover_failure :
    strptime_d_b_Y "29-Feb".data 2024 = some ⟨2024, 2, 29⟩ ∧
    (toordinal ⟨2024, 12, 31⟩ : ℤ) - (toordinal ⟨2024, 2, 29⟩ : ℤ) > 180 ∧
    strptime_d_b_Y "29-Feb".data 2025 = none ∧
    parse_week_date "29-Feb" ⟨2024, 12, 31⟩ = none := by
  refine ⟨by decide, by decide, by decide, by decide⟩

/-- C4: for every token whose parse with the current year (`now.year`)
succeeds and yields a date more than 180 days in the past, the resolver
rolls the year forward: `parse_week_date` returns exactly the result of
re-parsing the token with year+1 (including its failure mode, cf. C10). -/
theorem c4_year_rollover (week_str : String) (now parsed : Date)
    (h1 : strptime_d_b_Y week_str.data now.year = some parsed)
    (h2 : (toordinal now : ℤ) - (toordinal parsed : ℤ) > 180) :
    parse_week_date week_str now = strptime_d_b_Y week_str.data (now.year + 1) := by
  simp only [parse_week_date, h1]
  rw [if_pos h2]

/-- Witness for C4: "01-Jan" seen on 2025-12-01 is 334 days in the past,
so the resolver returns the 2026 parse. -/
theorem c4_witness :
    strptime_d_b_Y "01-Jan".data (Date.mk 2025 12 1).year = some ⟨2025, 1, 1⟩ ∧
    (toordinal ⟨2025, 12, 1⟩ : ℤ) - (toordinal ⟨2025, 1, 1⟩ : ℤ) > 180 ∧
    parse_week_date "01-Jan" ⟨2025, 12, 1⟩ =
      strptime_d_b_Y "01-Jan".data ((Date.mk 2025 12 1).year + 1) ∧
    strptime_d_b_Y "01-Jan".data ((Date.mk 2025 12 1).year + 1) = some ⟨2026, 1, 1⟩ :=
  ⟨by decide, by decide,
   c4_year_rollover "01-Jan" ⟨2025, 12, 1⟩ ⟨2025, 1, 1⟩ (by decide) (by decide),
   by decide⟩

/-- C5: whenever the pattern `to <number> (miles|mi)` matches somewhere in
the (normalized) cell text with a first-matched number in [0.5, 25]
(`mkRat 1 2 = 0.5`), `parse_distance_from_text` returns that number: the
"to X miles" rule is the first rule of the cascade, tried before every
other number rule. -/
theorem c5_to_miles_priority (text : String) (q : ℚ)
    (h1 : toMilesSearch (joinWords text.data) = some q)
    (h2 : mkRat 1 2 ≤ q) (h3 : q ≤ 25) :
    parse_distance_from_text text = some q := by
  have hguard : ¬(text = "" ∨ pyUpper (pyStrip text.data) ∈ skipWords) := by
    rintro (rfl | hm)
    · have h0 : toMilesSearch (joinWords ("" : String).data) = none := by decide
      rw [h0] at h1
      cases h1
    · obtain ⟨c, hc, hd⟩ := toMilesSearch_digit h1
      rcases mem_of_joinWords hc with rfl | hc2
      · exact absurd hd (by decide)
      · exact no_digit_of_skip hm hc2 hd
  unfold parse_distance_from_text
  rw [if_neg hguard]
  show acceptInRange (toMilesSearch (joinWords text.data)) _ = some q
  rw [h1]
  show (if mkRat 1 2 ≤ q ∧ q ≤ 25 then some q else _) = some q
  rw [if_pos ⟨h2, h3⟩]

/-- Witness for C5: "run 8 then cool down to 6 miles" yields 6 even
though 8 appears first. -/
theorem c5_witness :
    toMilesSearch (joinWords "run 8 then cool down to 6 miles".data) = some 6 ∧
    mkRat 1 2 ≤ (6 : ℚ) ∧ (6 : ℚ) ≤ 25 ∧
    parse_distance_from_text "run 8 then cool down to 6 miles" = some 6 :=
  ⟨by decide, by decide, by decide,
   c5_to_miles_priority "run 8 then cool down to 6 miles" 6 (by decide) (by decide) (by decide)⟩

/-- Counterexample to C6 as stated: "tempo easy day off" contains both
"tempo" and "easy" (case-insensitively, in the code's own
normalized-lowercase sense), yet classifies as REST, not TEMPO — the
"off" rule fires first. -/
theorem c6_counterexample :
    listContains (pyLower (joinWords "tempo easy day off".data)) "tempo".data = true ∧
    listContains (pyLower (joinWords "tempo easy day off".data)) "easy".data = true ∧
    classify_workout_type "tempo easy day off" = "REST" ∧
    classify_workout_type "tempo easy day off" ≠ "TEMPO" :=
  ⟨by decide, by decide, by decide, by decide⟩

/-- C6 (amended): for every cell text containing both "tempo" and "easy"
and none of the earlier-cascade keywords "xt", "cross", "off"
(substrings of the lowercased whitespace-normalized text),
`classify_workout_type` returns TEMPO, not EASY: the tempo rule precedes
the easy rule. -/
theorem c6_tempo_over_easy (text : String)
    (htempo : listContains (pyLower (joinWords text.data)) "tempo".data = true)
    (heasy : listContains (pyLower (joinWords text.data)) "easy".data = true)
    (hxt : listContains (pyLower (joinWords text.data)) "xt".data = false)
    (hcross : listContains (pyLower (joinWords text.data)) "cross".data = false)
    (hoff : listContains (pyLower (joinWords text.data)) "off".data = false) :
    classify_workout_type text = "TEMPO" := by
  have hne : text ≠ "" := by
    intro he
    rw [he] at htempo
    exact absurd htempo (by decide)
  have ht : 't' ∈ pyLower (joinWords text.data) :=
    mem_of_listContains htempo (by decide)
  have hne2 : pyStrip (pyLower (joinWords text.data)) ≠ [] :=
    pyStrip_ne_nil ht (by decide)
  have hstrip : (pyStrip (pyLower (joinWords text.data))).isEmpty = false := by
    cases hE : (pyStrip (pyLower (joinWords text.data))).isEmpty
    · rfl
    · exact absurd (List.isEmpty_iff.1 hE) hne2
  simp [classify_workout_type, hne, htempo, hxt, hcross, hoff, hstrip]

/-- Witness for C6 (amended) at "tempo then easy". -/
theorem c6_witness :
    listContains (pyLower (joinWords "tempo then easy".data)) "tempo".data = true ∧
    listContains (pyLower (joinWords "tempo then easy".data)) "easy".data = true ∧
    listContains (pyLower (joinWords "tempo then easy".data)) "xt".data = false ∧
    listContains (pyLower (joinWords "tempo then easy".data)) "cross".data = false ∧
    listContains (pyLower (joinWords "tempo then easy".data)) "off".data = false ∧
    classify_workout_type "tempo then easy" = "TEMPO" :=
  ⟨by decide, by decide, by decide, by decide, by decide,
   c6_tempo_over_easy "tempo then easy" (by decide) (by decide) (by decide) (by decide)
     (by decide)⟩

/-- Counterexample to C7 as stated: the cell "3\nmiles" (7 characters,
well under 100) produces a record whose name is the whitespace-normalized
"3 miles", not the raw cell text. -/
theorem c7_counterexample :
    ("3\nmiles" : String).data.length ≤ 100 ∧
    (parse_workout_cell "3\nmiles" ⟨2025, 1, 1⟩).map Workout.name = some "3 miles" ∧
    ("3 miles" : String) ≠ "3\nmiles" :=
  ⟨by decide, by decide, by decide⟩

/-- C7 (amended): the record's name is the whitespace-normalized cell
text when that normalized text is at most 100 characters, and otherwise
its first 97 characters followed by "..."; in particular a cell whose
normalized text has 101 characters gets a name of exactly 100 characters
ending in "...". -/
theorem c7_name_truncation (cell : String) (d : Date) (w : Workout)
    (h : parse_workout_cell cell d = some w) :
    (w.name.data =
      if (joinWords cell.data).length ≤ 100 then joinWords cell.data
      else (joinWords cell.data).take 97 ++ "...".data) ∧
    ((joinWords cell.data).length = 101 →
      w.name.data.length = 100 ∧ w.name.data.drop 97 = "...".data) := by
  simp only [parse_workout_cell] at h
  split at h
  · cases h
  split at h
  · cases h
  split at h
  · cases h
  split at h
  · cases h
  · cases h
    have hname : (if (joinWords cell.data).length ≤ 100 then (joinWords cell.data).take 100
        else (joinWords cell.data).take 97 ++ "...".data) =
        (if (joinWords cell.data).length ≤ 100 then joinWords cell.data
        else (joinWords cell.data).take 97 ++ "...".data) := by
      by_cases hlen : (joinWords cell.data).length ≤ 100
      · rw [if_pos hlen, if_pos hlen, List.take_of_length_le hlen]
      · rw [if_neg hlen, if_neg hlen]
    refine ⟨hname, ?_⟩
    intro h101
    have hlen : ¬ (joinWords cell.data).length ≤ 100 := by omega
    rw [hname, if_neg hlen]
    have htk : ((joinWords cell.data).take 97).length = 97 := by
      rw [List.length_take]
      omega
    constructor
    · rw [List.length_append, htk]
      rfl
    · exact List.drop_left' htk

/-- A cell whose normalized text is exactly 101 characters long. -/
def c7cell : String := ⟨'3' :: ' ' :: List.replicate 99 'a'⟩

/-- The record `c7cell` produces: name truncated to 97 characters plus
an ellipsis. -/
def c7rec : Workout :=
  ⟨⟨'3' :: ' ' :: (List.replicate 95 'a' ++ "...".data)⟩, "EASY", 3, ⟨2025, 1, 1⟩⟩

/-- Witness for C7 (amended) at the 101-character cell `c7cell`. -/
theorem c7_witness :
    parse_workout_cell c7cell ⟨2025, 1, 1⟩ = some c7rec ∧
    (joinWords c7cell.data).length = 101 ∧
    c7rec.name.data.length = 100 ∧ c7rec.name.data.drop 97 = "...".data :=
  ⟨by decide, by decide,
   ((c7_name_truncation c7cell ⟨2025, 1, 1⟩ c7rec (by decide)).2 (by decide)).1,
   ((c7_name_truncation c7cell ⟨2025, 1, 1⟩ c7rec (by decide)).2 (by decide)).2⟩

/-! ### C2: the end-to-end single-table scenario -/

/-- The header row of the C2 scenario. -/
def c2header : List (Option String) :=
  [some "Week", some "Monday", some "Tuesday", some "Wednesday", some "Thursday",
   some "Friday", some "Saturday", some "Sunday"]

/-- The single data row of the C2 scenario. -/
def c2row : List (Option String) :=
  [some "21-Jul", some "3.5 easy", some "XT", some "5 tempo run", some "OFF",
   some "4 easy + strides", some "", some "10 long run"]

/-- The C2 table. -/
def c2table : TableData := [c2header, c2row]

/-- Evaluation of `parse_workout_cell` on a cell that passes every guard:
the emitted record carries the normalized text as name (no truncation
when at most 100 characters), the classifier's label and the extracted
distance. -/
theorem parse_workout_cell_eq (cell : String) (d : Date) (q : ℚ)
    (h0 : ¬(cell = "" ∨ (pyStrip cell.data).isEmpty = true))
    (h1 : ¬(pyUpper (joinWords cell.data) = "OFF".data ∨
            pyUpper (joinWords cell.data) = "PARTAY".data))
    (h2 : ¬(pyUpper (joinWords cell.data) = "XT".data ∨
            ("XT +".data.isPrefixOf (pyUpper (joinWords cell.data))) = true))
    (hd : parse_distance_from_text ⟨joinWords cell.data⟩ = some q)
    (hlen : (joinWords cell.data).length ≤ 100) :
    parse_workout_cell cell d =
      some ⟨⟨joinWords cell.data⟩, classify_workout_type ⟨joinWords cell.data⟩, q, d⟩ := by
  simp only [parse_workout_cell]
  rw [if_neg h0, if_neg h1, if_neg h2]
  simp only [hd]
  rw [if_pos hlen, List.take_of_length_le hlen]

theorem c2cell_easy (d : Date) : parse_workout_cell "3.5 easy" d =
    some ⟨"3.5 easy", "EASY", mkRat 7 2, d⟩ := by
  rw [parse_workout_cell_eq "3.5 easy" d (mkRat 7 2) (by decide) (by decide) (by decide)
    (by decide) (by decide)]
  rw [show classify_workout_type ⟨joinWords "3.5 easy".data⟩ = "EASY" from by decide,
    show (⟨joinWords "3.5 easy".data⟩ : String) = "3.5 easy" from by decide]

theorem c2cell_tempo (d : Date) : parse_workout_cell "5 tempo run" d =
    some ⟨"5 tempo run", "TEMPO", 5, d⟩ := by
  rw [parse_workout_cell_eq "5 tempo run" d 5 (by decide) (by decide) (by decide)
    (by decide) (by decide)]
  rw [show classify_workout_type ⟨joinWords "5 tempo run".data⟩ = "TEMPO" from by decide,
    show (⟨joinWords "5 tempo run".data⟩ : String) = "5 tempo run" from by decide]

theorem c2cell_strides (d : Date) : parse_workout_cell "4 easy + strides" d =
    some ⟨"4 easy + strides", "EASY", 4, d⟩ := by
  rw [parse_workout_cell_eq "4 easy + strides" d 4 (by decide) (by decide) (by decide)
    (by decide) (by decide)]
  rw [show classify_workout_type ⟨joinWords "4 easy + strides".data⟩ = "EASY" from by decide,
    show (⟨joinWords "4 easy + strides".data⟩ : String) = "4 easy + strides" from by decide]

theorem c2cell_long (d : Date) : parse_workout_cell "10 long run" d =
    some ⟨"10 long run", "LONG", 10, d⟩ := by
  rw [parse_workout_cell_eq "10 long run" d 10 (by decide) (by decide) (by decide)
    (by decide) (by decide)]
  rw [show classify_workout_type ⟨joinWords "10 long run".data⟩ = "LONG" from by decide,
    show (⟨joinWords "10 long run".data⟩ : String) = "10 long run" from by decide]

theorem c2cell_xt (d : Date) : parse_workout_cell "XT" d = none := by
  simp only [parse_workout_cell]
  rw [if_neg (by decide), if_neg (by decide), if_pos (by decide)]

theorem c2cell_off (d : Date) : parse_workout_cell "OFF" d = none := by
  simp only [parse_workout_cell]
  rw [if_neg (by decide), if_pos (by decide)]

set_option maxHeartbeats 1000000 in
theorem c2col_mon (yy : Nat) : processCell ⟨yy, 7, 21⟩ c2row ("monday", 1) =
    [⟨"3.5 easy", "EASY", mkRat 7 2, ⟨yy, 7, 21⟩⟩] := by
  show (match parse_workout_cell "3.5 easy"
      (addDays ⟨yy, 7, 21⟩ (listIndex "monday" DAY_COLUMNS)) with
    | some w => [w] | none => []) = _
  rw [show listIndex "monday" DAY_COLUMNS = 0 from by decide]
  rw [show addDays ⟨yy, 7, 21⟩ 0 = ⟨yy, 7, 21⟩ from rfl]
  simp only [c2cell_easy]

set_option maxHeartbeats 1000000 in
theorem c2col_tue (yy : Nat) : processCell ⟨yy, 7, 21⟩ c2row ("tuesday", 2) = [] := by
  show (match parse_workout_cell "XT"
      (addDays ⟨yy, 7, 21⟩ (listIndex "tuesday" DAY_COLUMNS)) with
    | some w => [w] | none => []) = _
  simp only [c2cell_xt]

set_option maxHeartbeats 1000000 in
theorem c2col_wed (yy : Nat) : processCell ⟨yy, 7, 21⟩ c2row ("wednesday", 3) =
    [⟨"5 tempo run", "TEMPO", 5, ⟨yy, 7, 23⟩⟩] := by
  show (match parse_workout_cell "5 tempo run"
      (addDays ⟨yy, 7, 21⟩ (listIndex "wednesday" DAY_COLUMNS)) with
    | some w => [w] | none => []) = _
  rw [show listIndex "wednesday" DAY_COLUMNS = 2 from by decide]
  rw [show addDays ⟨yy, 7, 21⟩ 2 = ⟨yy, 7, 23⟩ from by simp [addDays, nextDay, daysInMonth]]
  simp only [c2cell_tempo]

set_option maxHeartbeats 1000000 in
theorem c2col_thu (yy : Nat) : processCell ⟨yy, 7, 21⟩ c2row ("thursday", 4) = [] := by
  show (match parse_workout_cell "OFF"
      (addDays ⟨yy, 7, 21⟩ (listIndex "thursday" DAY_COLUMNS)) with
    | some w => [w] | none => []) = _
  simp only [c2cell_off]

set_option maxHeartbeats 1000000 in
theorem c2col_fri (yy : Nat) : processCell ⟨yy, 7, 21⟩ c2row ("friday", 5) =
    [⟨"4 easy + strides", "EASY", 4, ⟨yy, 7, 25⟩⟩] := by
  show (match parse_workout_cell "4 easy + strides"
      (addDays ⟨yy, 7, 21⟩ (listIndex "friday" DAY_COLUMNS)) with
    | some w => [w] | none => []) = _
  rw [show listIndex "friday" DAY_COLUMNS = 4 from by decide]
  rw [show addDays ⟨yy, 7, 21⟩ 4 = ⟨yy, 7, 25⟩ from by simp [addDays, nextDay, daysInMonth]]
  simp only [c2cell_strides]

set_option maxHeartbeats 1000000 in
theorem c2col_sat (yy : Nat) : processCell ⟨yy, 7, 21⟩ c2row ("saturday", 6) = [] := rfl

set_option maxHeartbeats 1000000 in
theorem c2col_sun (yy : Nat) : processCell ⟨yy, 7, 21⟩ c2row ("sunday", 7) =
    [⟨"10 long run", "LONG", 10, ⟨yy, 7, 27⟩⟩] := by
  show (match parse_workout_cell "10 long run"
      (addDays ⟨yy, 7, 21⟩ (listIndex "sunday" DAY_COLUMNS)) with
    | some w => [w] | none => []) = _
  rw [show listIndex "sunday" DAY_COLUMNS = 6 from by decide]
  rw [show addDays ⟨yy, 7, 21⟩ 6 = ⟨yy, 7, 27⟩ from by simp [addDays, nextDay, daysInMonth]]
  simp only [c2cell_long]

/-- The day-column map of the C2 header: Monday..Sunday at indices 1..7. -/
theorem c2cols : buildDayCols c2header =
    [("monday", 1), ("tuesday", 2), ("wednesday", 3), ("thursday", 4),
     ("friday", 5), ("saturday", 6), ("sunday", 7)] := by decide

/-- The C2 data row yields its four records, for any resolved year. -/
theorem c2row_eval (yy : Nat) :
    processRow (buildDayCols c2header) ⟨yy, 7, 21⟩ c2row =
      [⟨"3.5 easy", "EASY", mkRat 7 2, ⟨yy, 7, 21⟩⟩,
       ⟨"5 tempo run", "TEMPO", 5, ⟨yy, 7, 23⟩⟩,
       ⟨"4 easy + strides", "EASY", 4, ⟨yy, 7, 25⟩⟩,
       ⟨"10 long run", "LONG", 10, ⟨yy, 7, 27⟩⟩] := by
  rw [processRow, c2cols]
  simp only [List.flatMap_cons, List.flatMap_nil, c2col_mon, c2col_tue, c2col_wed,
    c2col_thu, c2col_fri, c2col_sat, c2col_sun]
  rfl

/-- "21-Jul" parses with any four-digit year to July 21 of that year. -/
theorem strptime_21jul (y : Nat) (h1 : 1000 ≤ y) (h2 : y ≤ 9999) :
    strptime_d_b_Y "21-Jul".data y = some ⟨y, 7, 21⟩ := by
  have hp : parsePctD "21-Jul".data = some (21, '-' :: "Jul".data) := by decide
  have hm : matchMonth "Jul".data = some (7, []) := by decide
  simp only [strptime_d_b_Y, hp, hm]
  rw [if_pos]
  exact ⟨trivial, h1, h2, by show (21 : Nat) ≤ 31; decide⟩

/-- July 21 of the current year is never more than 180 days in the past:
at most 163 days separate it from December 31. -/
theorem no_roll_jul21 (now : Date) (hv : now.Valid) :
    ¬((toordinal now : ℤ) - (toordinal ⟨now.year, 7, 21⟩ : ℤ) > 180) := by
  obtain ⟨y, m, d⟩ := now
  obtain ⟨hy, hm1, hm2, hd1, hd2⟩ := hv
  simp only at hm1 hm2 hd1 hd2
  simp only [toordinal]
  cases hl : isLeap y <;>
    (interval_cases m <;>
      simp_all [daysBeforeMonth, daysInMonth, List.range_succ] <;> omega)

theorem c2table_eval (now : Date) :
    processTable now c2table
      = (match parse_week_date "21-Jul" now with
         | none => []
         | some ws => processRow (buildDayCols c2header) ws c2row) ++ [] := rfl

theorem c2extract_eval (psd now : Date) :
    extract_workouts_from_pdf (Except.ok [Except.ok [c2table]]) psd now
      = (processTable now c2table ++ []) ++ [] := rfl

/-- C2: on the single-page document with the Week/Monday..Sunday header
and the row ["21-Jul", "3.5 easy", "XT", "5 tempo run", "OFF",
"4 easy + strides", "", "10 long run"], exactly 4 records are produced —
Monday EASY 3.5 (`mkRat 7 2`), Wednesday TEMPO 5, Friday EASY 4, Sunday
LONG 10 — with Monday dated July 21 of the resolved year (here always
`now.year`: July 21 is never more than 180 days in the past of a `now`
in the same year) and Sunday July 27. -/
theorem c2_end_to_end (psd now : Date) (hv : now.Valid)
    (h1 : 1000 ≤ now.year) (h2 : now.year ≤ 9999) :
    parse_week_date "21-Jul" now = some ⟨now.year, 7, 21⟩ ∧
    extract_workouts_from_pdf (Except.ok [Except.ok [c2table]]) psd now =
      [⟨"3.5 easy", "EASY", mkRat 7 2, ⟨now.year, 7, 21⟩⟩,
       ⟨"5 tempo run", "TEMPO", 5, ⟨now.year, 7, 23⟩⟩,
       ⟨"4 easy + strides", "EASY", 4, ⟨now.year, 7, 25⟩⟩,
       ⟨"10 long run", "LONG", 10, ⟨now.year, 7, 27⟩⟩] := by
  have hparse : parse_week_date "21-Jul" now = some ⟨now.year, 7, 21⟩ := by
    simp only [parse_week_date, strptime_21jul now.year h1 h2]
    rw [if_neg (no_roll_jul21 now hv)]
  refine ⟨hparse, ?_⟩
  rw [c2extract_eval, List.append_nil, List.append_nil, c2table_eval,
    List.append_nil, hparse]
  exact c2row_eval now.year

/-- Witness for C2 with `now` = 2025-07-01. -/
theorem c2_witness :
    (Date.mk 2025 7 1).Valid ∧ 1000 ≤ (Date.mk 2025 7 1).year ∧
    (Date.mk 2025 7 1).year ≤ 9999 ∧
    parse_week_date "21-Jul" ⟨2025, 7, 1⟩ = some ⟨2025, 7, 21⟩ ∧
    extract_workouts_from_pdf (Except.ok [Except.ok [c2table]]) ⟨2025, 7, 1⟩ ⟨2025, 7, 1⟩ =
      [⟨"3.5 easy", "EASY", mkRat 7 2, ⟨2025, 7, 21⟩⟩,
       ⟨"5 tempo run", "TEMPO", 5, ⟨2025, 7, 23⟩⟩,
       ⟨"4 easy + strides", "EASY", 4, ⟨2025, 7, 25⟩⟩,
       ⟨"10 long run", "LONG", 10, ⟨2025, 7, 27⟩⟩] := by
  have h := c2_end_to_end ⟨2025, 7, 1⟩ ⟨2025, 7, 1⟩ (by decide) (by decide) (by decide)
  exact ⟨by decide, by decide, by decide, h.1, h.2⟩
